import Mathlib

/-!
Verification development for the larpix-scripts `dat2h5.py` conversion
pipeline.  The Python source is shallowly embedded: pure helper functions
become Lean functions, the stateful conversion loop becomes explicit state
threading over lists of frames, Python dicts become association lists, and
the uninitialized `np.empty` output cells become `Option Int` fields
(`none` = never written).  Machine floats appear only in `np.ceil` of a
small integer quotient and in the 10x coordinate scaling, both modelled
exactly over `ℚ`.
-/

namespace LarpixDat2h5

/-- Association-list lookup, modelling Python `d[k]` access on a dict with
`Nat` keys (raises `KeyError`, i.e. `none`, when the key is absent). -/
def alookup {α : Type} (k : Nat) : List (Nat × α) → Option α
  | [] => none
  | (k', v) :: rest => if k = k' then some v else alookup k rest

/-- Association-list update, modelling Python `d[k] = v`: replaces the
value at an existing key, otherwise appends the new binding. -/
def aset {α : Type} (k : Nat) (v : α) : List (Nat × α) → List (Nat × α)
  | [] => [(k, v)]
  | (k', v') :: rest => if k = k' then (k, v) :: rest else (k', v') :: aset k v rest

@[simp] theorem alookup_nil {α : Type} (k : Nat) : alookup (α := α) k [] = none := rfl

theorem alookup_aset_self {α : Type} (k : Nat) (v : α) :
    ∀ l : List (Nat × α), alookup k (aset k v l) = some v := by
  intro l
  induction l with
  | nil => simp [aset, alookup]
  | cons hd tl ih =>
      obtain ⟨k', v'⟩ := hd
      by_cases h : k = k'
      · simp [aset, alookup, h]
      · simp [aset, alookup, h, ih]

theorem alookup_aset_ne {α : Type} (k j : Nat) (v : α) (hne : j ≠ k) :
    ∀ l : List (Nat × α), alookup j (aset k v l) = alookup j l := by
  intro l
  induction l with
  | nil => simp [aset, alookup, hne]
  | cons hd tl ih =>
      obtain ⟨k', v'⟩ := hd
      by_cases h : k = k'
      · subst h
        simp [aset, alookup, hne]
      · by_cases h2 : j = k'
        · simp [aset, alookup, h, h2]
        · simp [aset, alookup, h, h2, ih]

/-- Exact model of `np.ceil(float(a) / b)` for integers and positive `b`:
the ceiling of the quotient, written with floor division so the kernel
can evaluate it.  `npCeilDiv_eq_ceil` proves it equal to the rational
ceiling `⌈a / b⌉`.  (The Python code goes through a double; on the small
differences fed to it the double computation is exact.) -/
def npCeilDiv (a b : Int) : Int := -((-a) / b)

theorem npCeilDiv_eq_ceil (a : Int) (d : Nat) :
    npCeilDiv a (d : Int) = ⌈(a : ℚ) / (d : ℚ)⌉ := by
  unfold npCeilDiv
  rw [← Rat.floor_intCast_div_natCast (-a) d, ← Int.ceil_neg]
  congr 1
  push_cast
  ring

/-- Embedding of `fix_lpx_timestamp_rollover(time, ref, time_nbit,
late_packet_window)` from `dat2h5.py`.  Note the source compares
`ref - time < 10` against the literal `10`, not against the
`late_packet_window` parameter; the embedding reproduces that literal. -/
def fix_lpx_timestamp_rollover (time ref : Int) (time_nbit : Nat)
    (late_packet_window : Int) : Int :=
  let rollover_dt : Int := 2 ^ time_nbit
  if 0 < ref - time then
    if ref - time < 10 then -1
    else npCeilDiv (ref - time) rollover_dt * rollover_dt + time
  else time

theorem npCeilDiv_mul_ge (a b : Int) (hb : 0 < b) : a ≤ npCeilDiv a b * b := by
  obtain ⟨d, rfl⟩ : ∃ d : Nat, b = (d : Int) := ⟨b.toNat, by omega⟩
  rw [npCeilDiv_eq_ceil]
  have hbq : (0 : ℚ) < (d : ℚ) := by exact_mod_cast hb
  have h1 : ((a : ℚ) / (d : ℚ)) ≤ (⌈(a : ℚ) / (d : ℚ)⌉ : ℚ) := Int.le_ceil _
  have h2 : (a : ℚ) ≤ (⌈(a : ℚ) / (d : ℚ)⌉ : ℚ) * (d : ℚ) := by
    have hm := mul_le_mul_of_nonneg_right h1 (le_of_lt hbq)
    calc (a : ℚ) = (a : ℚ) / (d : ℚ) * (d : ℚ) := by field_simp
    _ ≤ (⌈(a : ℚ) / (d : ℚ)⌉ : ℚ) * (d : ℚ) := hm
  exact_mod_cast h2

/-- C1: with the 10-bit width (rollover `2^10 = 1024`) and the default
late window of 10, whenever `r > t` and `r - t ≥ 10` the reconstruction
returns `⌈(r - t)/1024⌉ * 1024 + t`, a value congruent to `t` modulo
`1024` and at least `r`. -/
theorem fix_rollover_far_behind (t r : Int) (hgt : t < r) (hwin : 10 ≤ r - t) :
    fix_lpx_timestamp_rollover t r 10 10 = npCeilDiv (r - t) 1024 * 1024 + t ∧
    fix_lpx_timestamp_rollover t r 10 10 % 1024 = t % 1024 ∧
    r ≤ fix_lpx_timestamp_rollover t r 10 10 := by
  have hpos : 0 < r - t := by omega
  have hnotlt : ¬ (r - t < 10) := by omega
  have hval : fix_lpx_timestamp_rollover t r 10 10
      = npCeilDiv (r - t) 1024 * 1024 + t := by
    unfold fix_lpx_timestamp_rollover
    simp only [if_pos hpos, if_neg hnotlt]
    norm_num
  refine ⟨hval, ?_, ?_⟩
  · rw [hval]
    omega
  · rw [hval]
    have := npCeilDiv_mul_ge (r - t) 1024 (by norm_num)
    omega

theorem fix_rollover_far_behind_witness :
    (3 : Int) < 1030 ∧ (10 : Int) ≤ 1030 - 3 ∧
    fix_lpx_timestamp_rollover 3 1030 10 10 = npCeilDiv (1030 - 3) 1024 * 1024 + 3 ∧
    fix_lpx_timestamp_rollover 3 1030 10 10 % 1024 = 3 % 1024 ∧
    (1030 : Int) ≤ fix_lpx_timestamp_rollover 3 1030 10 10 := by
  refine ⟨by norm_num, by norm_num, ?_⟩
  exact fix_rollover_far_behind 3 1030 (by norm_num) (by norm_num)

/-- C2 (code bug): the source compares `ref - time` against the literal
`10`, ignoring the `late_packet_window` parameter its own docstring
promises to honour.  With `late_packet_window = 20`, `t = 0`, `r = 15`
the claim demands the reject sentinel `-1`, but the code computes a
rollover correction and returns `1024`. -/
theorem fix_rollover_ignores_late_window_param :
    (0 : Int) < 15 ∧ (15 : Int) - 0 < 20 ∧
    fix_lpx_timestamp_rollover 0 15 10 20 = 1024 ∧
    fix_lpx_timestamp_rollover 0 15 10 20 ≠ -1 := by
  refine ⟨by norm_num, by norm_num, by decide, by decide⟩

/-! ## The fixed-word (.lpx) frame source -/

/-- Bits of a byte string in `bitarray(endian='little')` order: each byte
contributes its bits least-significant first. -/
def bytesToBits (w : List Nat) : List Bool :=
  w.bind (fun b => (List.range 8).map (fun i => Nat.testBit b i))

/-- Little-endian value of a bit list: index `i` carries weight `2^i`.
This models `int(timestamp_bits.reverse().to01(), 2)` in the source
(reversing, printing index order, and reading the string most-significant
first is exactly the little-endian value of the original slice). -/
def bitsToNatLE : List Bool → Nat
  | [] => 0
  | b :: rest => (if b then 1 else 0) + 2 * bitsToNatLE rest

/-- `bitarray.tobytes()` for a little-endian bitarray: bytes of 8 bits
each, the final partial byte zero-padded in its high bits. -/
def bitsToBytes : List Bool → List Nat
  | [] => []
  | b0 :: b1 :: b2 :: b3 :: b4 :: b5 :: b6 :: b7 :: rest =>
      bitsToNatLE [b0, b1, b2, b3, b4, b5, b6, b7] :: bitsToBytes rest
  | l => [bitsToNatLE l]

/-- Embedding of `extract_lpx_data(word)`: split the word's bits into the
54-bit packet field and the 10-bit timestamp field (bits 54..63).
`int('', 2)` raises `ValueError` when the timestamp slice is empty, which
happens exactly when the word has at most 6 bytes; this is the `.error`
branch. -/
def extract_lpx_data (word : List Nat) : Except Unit (Nat × List Nat) :=
  let bits := bytesToBits word
  let timestamp_bits := (bits.drop 54).take 10
  if timestamp_bits.isEmpty then .error ()
  else .ok (bitsToNatLE timestamp_bits, bitsToBytes (bits.take 54))

/-- Frame kind tag (the source uses the string `'data'`). -/
inductive BlockKind | data | other
deriving DecidableEq

/-- Frame direction tag (the source uses the strings `'read'`/`'write'`). -/
inductive DataKind | read | write | other
deriving DecidableEq

/-- Start framing marker of the external serial wire format
(`SerialPort.start_byte`); its concrete value is an external contract. -/
def start_byte : Nat := 0x73

/-- Stop framing marker of the external serial wire format
(`SerialPort.stop_byte`). -/
def stop_byte : Nat := 0x71

/-- The faux block dictionary built by `lpx_loader.next_block`. -/
structure LpxBlock where
  block_type : BlockKind
  data_type : DataKind
  data : List Nat
  time : Int
deriving DecidableEq

/-- State of an `lpx_loader`: the bytes not yet read and the
`prev_timestamp` reference. -/
structure LpxState where
  stream : List Nat
  prev_timestamp : Int
deriving DecidableEq

/-- Embedding of `lpx_loader.next_block`: read up to 8 bytes; an empty
read is end-of-stream (`none`); otherwise extract the word (which can
raise, the `.error` case), apply the rollover fix against
`prev_timestamp`, update `prev_timestamp` only when the fixed timestamp
is non-negative, and emit the faux data-read block whose `time` is the
raw extracted 10-bit timestamp. -/
def next_block (s : LpxState) : Except Unit (Option LpxBlock × LpxState) :=
  let bytes := s.stream.take 8
  if bytes.isEmpty then .ok (none, s)
  else
    match extract_lpx_data bytes with
    | .error e => .error e
    | .ok (timestamp, packet_bytes) =>
        let fixed_timestamp := fix_lpx_timestamp_rollover (timestamp : Int)
          s.prev_timestamp 10 10
        let prev' := if 0 ≤ fixed_timestamp then fixed_timestamp
          else s.prev_timestamp
        .ok (some { block_type := .data, data_type := .read,
                    data := start_byte :: (packet_bytes ++ [0, stop_byte]),
                    time := (timestamp : Int) },
             { stream := s.stream.drop 8, prev_timestamp := prev' })

/-- Iterated `next_block`, stopping at end-of-stream or on an exception
(an exception leaves the state as it was when raised, since the update
happens after extraction). -/
def run_lpx : Nat → LpxState → LpxState
  | 0, s => s
  | n + 1, s =>
      match next_block s with
      | .ok (some _, s') => run_lpx n s'
      | .ok (none, s') => s'
      | .error _ => s

theorem length_bytesToBits (w : List Nat) :
    (bytesToBits w).length = 8 * w.length := by
  induction w with
  | nil => simp [bytesToBits]
  | cons b rest ih =>
      simp [bytesToBits] at ih ⊢
      omega

/-- Whenever the rollover fix accepts (returns a non-negative value), the
accepted value is at least the reference. -/
theorem fix_rollover_accepted_ge_ref (t r : Int)
    (h : 0 ≤ fix_lpx_timestamp_rollover t r 10 10) :
    r ≤ fix_lpx_timestamp_rollover t r 10 10 := by
  unfold fix_lpx_timestamp_rollover at h ⊢
  by_cases h1 : 0 < r - t
  · by_cases h2 : r - t < 10
    · simp [h1, h2] at h
    · simp only [if_pos h1, if_neg h2] at h ⊢
      have := npCeilDiv_mul_ge (r - t) (2 ^ 10) (by norm_num)
      omega
  · simp only [if_neg h1] at h ⊢
    omega

theorem next_block_prev_step (s : LpxState) (res : Option LpxBlock)
    (s' : LpxState) (h : next_block s = .ok (res, s')) :
    s.prev_timestamp ≤ s'.prev_timestamp := by
  simp only [next_block] at h
  split at h
  · simp only [Except.ok.injEq, Prod.mk.injEq] at h
    obtain ⟨-, rfl⟩ := h
    exact le_refl _
  · split at h
    · cases h
    · simp only [Except.ok.injEq, Prod.mk.injEq] at h
      obtain ⟨-, rfl⟩ := h
      simp only
      split
      · rename_i hf
        exact fix_rollover_accepted_ge_ref _ _ hf
      · exact le_refl _

/-- C10: for the fixed-word loader, a non-negative initial reference
never decreases across `next_block` calls — the reference is replaced
only when the corrected timestamp is non-negative, and every accepted
corrected timestamp is at least the current reference
(`fix_rollover_accepted_ge_ref`), so after any number of steps the
reference is at least its initial value and still non-negative. -/
theorem lpx_prev_timestamp_monotone (n : Nat) (s : LpxState)
    (h : 0 ≤ s.prev_timestamp) :
    s.prev_timestamp ≤ (run_lpx n s).prev_timestamp ∧
    0 ≤ (run_lpx n s).prev_timestamp := by
  induction n generalizing s with
  | zero => exact ⟨le_refl _, h⟩
  | succ n ih =>
      unfold run_lpx
      cases hnb : next_block s with
      | error e => exact ⟨le_refl _, h⟩
      | ok p =>
          obtain ⟨res, s'⟩ := p
          have hstep := next_block_prev_step s res s' hnb
          cases res with
          | none => exact ⟨hstep, le_trans h hstep⟩
          | some b =>
              obtain ⟨ih1, ih2⟩ := ih s' (le_trans h hstep)
              exact ⟨le_trans hstep ih1, ih2⟩

theorem lpx_prev_timestamp_monotone_witness :
    (0 : Int) ≤ (LpxState.mk [7, 0, 0, 0, 0, 0, 0, 128, 9, 0, 0, 0, 0, 0, 0, 0] 0).prev_timestamp ∧
    ((LpxState.mk [7, 0, 0, 0, 0, 0, 0, 128, 9, 0, 0, 0, 0, 0, 0, 0] 0).prev_timestamp ≤
      (run_lpx 3 (LpxState.mk [7, 0, 0, 0, 0, 0, 0, 128, 9, 0, 0, 0, 0, 0, 0, 0] 0)).prev_timestamp ∧
     0 ≤ (run_lpx 3 (LpxState.mk [7, 0, 0, 0, 0, 0, 0, 128, 9, 0, 0, 0, 0, 0, 0, 0] 0)).prev_timestamp) :=
  ⟨by decide, lpx_prev_timestamp_monotone 3 _ (by decide)⟩

instance {ε α : Type} [DecidableEq ε] [DecidableEq α] : DecidableEq (Except ε α) := fun
  | .error a, .error b =>
      if h : a = b then .isTrue (by rw [h])
      else .isFalse (by intro hc; injection hc with h2; exact h h2)
  | .error _, .ok _ => .isFalse (by intro hc; exact Except.noConfusion hc)
  | .ok _, .error _ => .isFalse (by intro hc; exact Except.noConfusion hc)
  | .ok a, .ok b =>
      if h : a = b then .isTrue (by rw [h])
      else .isFalse (by intro hc; injection hc with h2; exact h h2)

theorem extract_lpx_data_ok_spec (w : List Nat) (t : Nat) (p : List Nat)
    (h : extract_lpx_data w = .ok (t, p)) :
    t = bitsToNatLE (((bytesToBits w).drop 54).take 10) ∧
    p = bitsToBytes ((bytesToBits w).take 54) := by
  simp only [extract_lpx_data] at h
  split at h
  · cases h
  · simp only [Except.ok.injEq, Prod.mk.injEq] at h
    exact ⟨h.1.symm, h.2.symm⟩

/-- C6 (corrected): a read of zero bytes is end-of-stream, but a
truncated final word is NOT treated as end-of-stream: `[1, 2, 3, 4]`
leaves a 4-byte word whose 10-bit timestamp slice is empty, so
`int('', 2)` raises `ValueError` — the `.error` result, not the
end-of-stream `none`. -/
theorem lpx_truncated_word_raises :
    next_block (LpxState.mk [1, 2, 3, 4] 0) = .error () ∧
    next_block (LpxState.mk [1, 2, 3, 4] 0) ≠
      .ok (none, LpxState.mk [1, 2, 3, 4] 0) := by
  refine ⟨by decide, by decide⟩

/-- C6 as amended: only a read of zero remaining bytes is treated as
end-of-stream; a truncated final word of 1 to 6 bytes raises an error
(its 10-bit timestamp slice is empty), and a 7-byte truncated word is
not end-of-stream either — it yields a (malformed) frame. -/
theorem lpx_truncation_behavior (s : LpxState) :
    (s.stream = [] → next_block s = .ok (none, s)) ∧
    (0 < s.stream.length → s.stream.length ≤ 6 → next_block s = .error ()) ∧
    (s.stream.length = 7 → ∃ b s', next_block s = .ok (some b, s')) := by
  refine ⟨?_, ?_, ?_⟩
  · intro hnil
    simp [next_block, hnil]
  · intro hpos h6
    have htake : s.stream.take 8 = s.stream := List.take_of_length_le (by omega)
    have hne : (s.stream.take 8).isEmpty = false := by
      rw [htake, List.isEmpty_eq_false]
      intro hnil
      rw [hnil] at hpos
      simp at hpos
    have hbits : (bytesToBits (s.stream.take 8)).length ≤ 48 := by
      rw [htake, length_bytesToBits]
      omega
    have hdrop : (bytesToBits (s.stream.take 8)).drop 54 = [] := by
      rw [List.drop_eq_nil_iff]
      omega
    simp [next_block, extract_lpx_data, hne, hdrop]
  · intro h7
    have htake : s.stream.take 8 = s.stream := List.take_of_length_le (by omega)
    have hne : (s.stream.take 8).isEmpty = false := by
      rw [htake, List.isEmpty_eq_false]
      intro hnil
      rw [hnil] at h7
      simp at h7
    have hbits : (bytesToBits (s.stream.take 8)).length = 56 := by
      rw [htake, length_bytesToBits, h7]
    have hts : (((bytesToBits (s.stream.take 8)).drop 54).take 10).isEmpty = false := by
      rw [List.isEmpty_eq_false]
      intro hnil
      have hlen2 : (((bytesToBits (s.stream.take 8)).drop 54).take 10).length = 2 := by
        simp [hbits]
      rw [hnil] at hlen2
      simp at hlen2
    simp only [next_block, extract_lpx_data, hne, Bool.false_eq_true, if_false, hts]
    exact ⟨_, _, rfl⟩

theorem lpx_truncation_behavior_witness :
    next_block (LpxState.mk [] 5) = .ok (none, LpxState.mk [] 5) ∧
    next_block (LpxState.mk [9, 9, 9] 5) = .error () ∧
    (∃ b s', next_block (LpxState.mk [1, 2, 3, 4, 5, 6, 7] 5) = .ok (some b, s')) :=
  ⟨(lpx_truncation_behavior (LpxState.mk [] 5)).1 rfl,
   (lpx_truncation_behavior (LpxState.mk [9, 9, 9] 5)).2.1 (by decide) (by decide),
   (lpx_truncation_behavior (LpxState.mk [1, 2, 3, 4, 5, 6, 7] 5)).2.2 (by decide)⟩

/-- C7 (corrected): the frame's capture-time field does NOT hold the
invalid negative sentinel — `next_block` stores the raw extracted 10-bit
timestamp, a non-negative value.  On a word of eight `0xFF` bytes the
emitted block carries `time = 1023 ≥ 0`. -/
theorem lpx_block_time_not_invalid_sentinel :
    next_block (LpxState.mk [255, 255, 255, 255, 255, 255, 255, 255] 0) =
      .ok (some (LpxBlock.mk .data .read
            (start_byte :: ([255, 255, 255, 255, 255, 255, 63] ++ [0, stop_byte])) 1023),
           LpxState.mk [] 1023) ∧
    ¬ (LpxBlock.mk .data .read
        (start_byte :: ([255, 255, 255, 255, 255, 255, 63] ++ [0, stop_byte])) 1023).time < 0 := by
  refine ⟨by decide, by decide⟩

/-- C7 as amended: every frame produced by `next_block` is a synthetic
data-read frame whose capture-time field holds the word's extracted
10-bit truncated timestamp (a non-negative value, not the invalid
sentinel), and whose payload is the 54-bit packet field (zero-padded to
bytes) wrapped between the start marker and a zero byte plus the stop
marker. -/
theorem lpx_block_shape (s : LpxState) (b : LpxBlock) (s' : LpxState)
    (h : next_block s = .ok (some b, s')) :
    b.block_type = .data ∧ b.data_type = .read ∧
    b.time = (bitsToNatLE (((bytesToBits (s.stream.take 8)).drop 54).take 10) : Int) ∧
    0 ≤ b.time ∧
    b.data = start_byte ::
      (bitsToBytes ((bytesToBits (s.stream.take 8)).take 54) ++ [0, stop_byte]) := by
  simp only [next_block] at h
  split at h
  · cases h
  · split at h
    · cases h
    · rename_i hex
      have hspec := extract_lpx_data_ok_spec _ _ _ hex
      simp only [Except.ok.injEq, Prod.mk.injEq, Option.some.injEq] at h
      obtain ⟨hb, -⟩ := h
      subst hb
      refine ⟨rfl, rfl, ?_, ?_, ?_⟩
      · simp only
        rw [hspec.1]
      · simp only
        exact Int.natCast_nonneg _
      · simp only
        rw [hspec.2]

theorem lpx_block_shape_witness :
    (next_block (LpxState.mk [255, 255, 255, 255, 255, 255, 255, 255] 0) =
      .ok (some (LpxBlock.mk .data .read
            (start_byte :: ([255, 255, 255, 255, 255, 255, 63] ++ [0, stop_byte])) 1023),
           LpxState.mk [] 1023)) ∧
    ((LpxBlock.mk .data .read
        (start_byte :: ([255, 255, 255, 255, 255, 255, 63] ++ [0, stop_byte])) 1023).block_type = .data ∧
     (LpxBlock.mk .data .read
        (start_byte :: ([255, 255, 255, 255, 255, 255, 63] ++ [0, stop_byte])) 1023).data_type = .read ∧
     (LpxBlock.mk .data .read
        (start_byte :: ([255, 255, 255, 255, 255, 255, 63] ++ [0, stop_byte])) 1023).time =
       (bitsToNatLE (((bytesToBits ((LpxState.mk [255, 255, 255, 255, 255, 255, 255, 255] 0).stream.take 8)).drop 54).take 10) : Int) ∧
     0 ≤ (LpxBlock.mk .data .read
        (start_byte :: ([255, 255, 255, 255, 255, 255, 63] ++ [0, stop_byte])) 1023).time ∧
     (LpxBlock.mk .data .read
        (start_byte :: ([255, 255, 255, 255, 255, 255, 63] ++ [0, stop_byte])) 1023).data =
       start_byte :: (bitsToBytes ((bytesToBits ((LpxState.mk [255, 255, 255, 255, 255, 255, 255, 255] 0).stream.take 8)).take 54) ++ [0, stop_byte])) :=
  ⟨by decide,
   lpx_block_shape (LpxState.mk [255, 255, 255, 255, 255, 255, 255, 255] 0)
     (LpxBlock.mk .data .read
       (start_byte :: ([255, 255, 255, 255, 255, 255, 63] ++ [0, stop_byte])) 1023)
     (LpxState.mk [] 1023) (by decide)⟩

/-! ## The conversion main loop of dat2h5.py

The packet parser (`SerialPort._parse_input`), the register map
(`larpix.larpix.Configuration`) and `larpix.timestamp.Timestamp` are
external collaborators; frames carry their decoded packets directly, the
register constants are the external contract's values, and
`Timestamp.from_packet` is a parameter of the loop. -/

/-- Decoded packet variants the loop dispatches on (`CONFIG_WRITE_PACKET`,
`DATA_PACKET`, anything else). -/
inductive Packet
  | config_write (chipid : Nat) (register_address : Nat) (register_data : Int)
  | data (chipid : Nat) (channel_id : Nat) (dataword : Int) (timestamp : Int)
  | other
deriving DecidableEq

/-- True exactly on `DATA_PACKET`s. -/
def Packet.isData : Packet → Bool
  | .data _ _ _ _ => true
  | _ => false

/-- `Configuration.pixel_trim_threshold_addresses` of the external larpix
register map: registers 0..31. -/
def pixel_trim_threshold_addresses : List Nat := List.range 32

/-- `Configuration.global_threshold_address` of the external larpix
register map: register 32. -/
def global_threshold_address : Nat := 32

/-- Embedding of `fix_ADC(raw_adc)`: drop LSB and MSB, `(raw - 128) // 2`
with Python floor division. -/
def fix_ADC (raw_adc : Int) : Int := Int.fdiv (raw_adc - 128) 2

/-- Python `int(...)` applied to an exact rational: truncation toward
zero (also the behaviour of assigning a float into an `int64` array). -/
def pyInt (q : ℚ) : Int := Int.tdiv q.num (q.den : Int)

/-- Per-chip slot of the `chip_threshold` dict: the integer channel keys
(trim values) and the `'global_threshold'` string key. -/
structure ChipEntry where
  trims : List (Nat × Int)
  global_threshold : Option Int
deriving DecidableEq

/-- One `chip_threshold` update for one parsed packet of a data-write
block: a config write to a pixel-trim register stores that channel's
trim, a write to the global-threshold register stores the chip's global
threshold (creating the per-chip dict on `KeyError`), anything else is
ignored. -/
def observe_config (st : List (Nat × ChipEntry)) (p : Packet) :
    List (Nat × ChipEntry) :=
  match p with
  | .config_write chipid addr rd =>
      if addr ∈ pixel_trim_threshold_addresses then
        match alookup chipid st with
        | some e => aset chipid { e with trims := aset addr rd e.trims } st
        | none => aset chipid { trims := [(addr, rd)], global_threshold := none } st
      else if addr = global_threshold_address then
        match alookup chipid st with
        | some e => aset chipid { e with global_threshold := some rd } st
        | none => aset chipid { trims := [], global_threshold := some rd } st
      else st
  | _ => st

/-- The trim/global annotation of a data packet, from the source's single
`try` block: `chip_threshold[chipid][channel]` then
`chip_threshold[chipid]['global_threshold']`; any `KeyError` makes BOTH
columns the sentinel `-1`. -/
def threshold_fields (st : List (Nat × ChipEntry)) (chipid channel : Nat) :
    Int × Int :=
  match alookup chipid st with
  | none => (-1, -1)
  | some e =>
      match alookup channel e.trims with
      | none => (-1, -1)
      | some trim =>
          match e.global_threshold with
          | none => (-1, -1)
          | some g => (trim, g)

/-- Direct dict lookup of a channel's trim (used to state when the
combined `try` block succeeds). -/
def trim_lookup (st : List (Nat × ChipEntry)) (chipid channel : Nat) :
    Option Int :=
  (alookup chipid st).bind (fun e => alookup channel e.trims)

/-- A pixel of the geometry table: id (the unconnected pixel has `None`)
and its coordinates, exact rationals standing for the layout's floats. -/
structure Pixel where
  pixelid : Option Int
  x : ℚ
  y : ℚ
deriving DecidableEq

/-- The external geometry lookup service: per chip id the
`channel_connections` list, plus the distinguished unconnected pixel. -/
structure Geometry where
  chips : List (Nat × List Pixel)
  unconnected_pixel : Pixel
deriving DecidableEq

/-- Embedding of the pixel resolution `try` block:
`geometry.chips[chipid].channel_connections[channel]`, with `KeyError`
(unknown chip) and `IndexError` (channel out of range) both falling back
to `geometry.unconnected_pixel`. -/
def resolve_pixel (g : Geometry) (chipid channel : Nat) : Pixel :=
  match alookup chipid g.chips with
  | none => g.unconnected_pixel
  | some conns =>
      match conns[channel]? with
      | none => g.unconnected_pixel
      | some p => p

/-- Pixel columns of the record: `(-1, -1, -1)` when the resolved pixel
has no id, otherwise `(pixelid, int(10*x), int(10*y))`. -/
def pixel_fields (g : Geometry) (chipid channel : Nat) : Int × Int × Int :=
  let pixel := resolve_pixel g chipid channel
  match pixel.pixelid with
  | none => (-1, -1, -1)
  | some pid => (pid, pyInt (10 * pixel.x), pyInt (10 * pixel.y))

/-- One chip/channel slot of the calibration JSON table. -/
structure CalibEntry where
  gain_v : ℚ
  gain_vcm : ℚ
  pedestal_v : ℚ
deriving DecidableEq

/-- Calibration table keyed like the JSON: chip id then channel id (the
source stringifies the keys; stringification of naturals is injective). -/
def Calib : Type := List (Nat × List (Nat × CalibEntry))

/-- Converted-voltage column: `1e3*(dataword*gain_v + gain_vcm)` stored
into the `int64` array, or the sentinel on `KeyError`. -/
def calib_v (calib : Calib) (chipid channel : Nat) (dataword : Int) : Int :=
  match alookup chipid calib with
  | none => -1
  | some m =>
      match alookup channel m with
      | none => -1
      | some e => pyInt (1000 * ((dataword : ℚ) * e.gain_v + e.gain_vcm))

/-- Pedestal-voltage column: `1e3 * pedestal_v` or the sentinel on
`KeyError`. -/
def calib_pdst (calib : Calib) (chipid channel : Nat) : Int :=
  match alookup chipid calib with
  | none => -1
  | some m =>
      match alookup channel m with
      | none => -1
      | some e => pyInt (1000 * e.pedestal_v)

/-- Modelled from the spec: `larpix.timestamp.Timestamp` is an external
collaborator of which the loop reads only the `ns` field; its
construction (`Timestamp.from_packet`) is passed to the loop as an
opaque function parameter. -/
structure Timestamp where
  ns : Int
deriving DecidableEq

/-- One output row.  `full_timestamp` is an `Option` because column 8 of
the `np.empty` chunk is written only when the capture time is valid:
`none` models a cell the loop never assigned. -/
structure Record where
  channel_id : Int
  chipid : Int
  pixelid : Int
  pixelx : Int
  pixely : Int
  raw_adc : Int
  raw_timestamp : Int
  adc6 : Int
  full_timestamp : Option Int
  serial_index : Int
  v_mv : Int
  pdst_v_mv : Int
  pixel_trim : Int
  global_threshold : Int
  cpu_timestamp : Int
deriving DecidableEq

/-- One transmission frame as the loop sees it: the block tags, the
packets the external codec parses out of its payload, and its
capture-time value. -/
structure Frame where
  block_type : BlockKind
  data_type : DataKind
  packets : List Packet
  time : Int
deriving DecidableEq

/-- Mutable state of the conversion pass: the two dicts and the emitted
rows (the chunked `numpy_arrays` flattened, which §4.6 of the spec
declares an unobservable implementation detail). -/
structure LoopState where
  chip_threshold : List (Nat × ChipEntry)
  last_timestamp : List (Nat × Timestamp)
  records : List Record
deriving DecidableEq

/-- Processing of one parsed packet of a data-read block: a
`DATA_PACKET` is annotated and emitted and the per-chip timestamp
references are updated (cold-start: the first valid timestamp seeds
chips 0..254); other packet types are ignored. -/
def process_data_packet (geom : Geometry) (calib : Calib)
    (fp : Packet → Int → Option Timestamp → Timestamp)
    (serial_index cpu_time : Int) (st : LoopState) (p : Packet) : LoopState :=
  match p with
  | .data chipid channel dataword timestamp =>
      let thr := threshold_fields st.chip_threshold chipid channel
      let pix := pixel_fields geom chipid channel
      let ref_time := alookup chipid st.last_timestamp
      let current_timestamp : Option Timestamp :=
        if cpu_time < 0 then none
        else some (fp (.data chipid channel dataword timestamp) cpu_time ref_time)
      let row : Record :=
        { channel_id := (channel : Int), chipid := (chipid : Int),
          pixelid := pix.1, pixelx := pix.2.1, pixely := pix.2.2,
          raw_adc := dataword, raw_timestamp := timestamp,
          adc6 := fix_ADC dataword,
          full_timestamp := current_timestamp.map Timestamp.ns,
          serial_index := serial_index,
          v_mv := calib_v calib chipid channel dataword,
          pdst_v_mv := calib_pdst calib chipid channel,
          pixel_trim := thr.1, global_threshold := thr.2,
          cpu_timestamp := cpu_time }
      let last' :=
        match current_timestamp with
        | none => st.last_timestamp
        | some ts =>
            if st.last_timestamp.isEmpty then
              (List.range 255).map (fun c => (c, ts))
            else aset chipid ts st.last_timestamp
      { st with records := st.records ++ [row], last_timestamp := last' }
  | _ => st

/-- Processing of one frame: data-write blocks feed their config-write
packets to the threshold tracker, data-read blocks are scanned for data
packets, all other block kinds are ignored. -/
def process_block (geom : Geometry) (calib : Calib)
    (fp : Packet → Int → Option Timestamp → Timestamp)
    (serial_index : Int) (st : LoopState) (b : Frame) : LoopState :=
  if b.block_type = .data ∧ b.data_type = .write then
    { st with chip_threshold := b.packets.foldl observe_config st.chip_threshold }
  else if b.block_type = .data ∧ b.data_type = .read then
    b.packets.foldl (process_data_packet geom calib fp serial_index b.time) st
  else st

/-- The `while True` loop: `serialblock` is incremented as soon as a
block arrives, the loop breaks at end-of-stream or once `n_trans` blocks
have been seen, and blocks with index below `n_skip` are skipped before
any mutation. -/
def run_loop_aux (geom : Geometry) (calib : Calib)
    (fp : Packet → Int → Option Timestamp → Timestamp)
    (n_trans : Option Int) (n_skip : Int) :
    List Frame → Int → LoopState → LoopState
  | [], _sb, st => st
  | b :: rest, sb, st =>
      let sb' := sb + 1
      match n_trans with
      | some n =>
          if n ≤ sb' then st
          else if sb' < n_skip then run_loop_aux geom calib fp n_trans n_skip rest sb' st
          else run_loop_aux geom calib fp n_trans n_skip rest sb'
            (process_block geom calib fp sb' st b)
      | none =>
          if sb' < n_skip then run_loop_aux geom calib fp n_trans n_skip rest sb' st
          else run_loop_aux geom calib fp n_trans n_skip rest sb'
            (process_block geom calib fp sb' st b)

/-- A whole conversion pass over a frame stream, from the empty dicts and
the initial `serialblock = -1`. -/
def run_loop (geom : Geometry) (calib : Calib)
    (fp : Packet → Int → Option Timestamp → Timestamp)
    (n_trans : Option Int) (n_skip : Int) (blocks : List Frame) : LoopState :=
  run_loop_aux geom calib fp n_trans n_skip blocks (-1)
    { chip_threshold := [], last_timestamp := [], records := [] }

/-- True (as a boolean) exactly on config writes of the global-threshold
register of chip `C`. -/
def isGlobalWriteTo (C : Nat) : Packet → Bool
  | .config_write c a _ => c == C && a == global_threshold_address
  | _ => false

/-- The chip's recorded global threshold, if any. -/
def global_of (st : List (Nat × ChipEntry)) (C : Nat) : Option Int :=
  (alookup C st).bind ChipEntry.global_threshold

/-- Threshold state after a global-threshold write of `V` to chip `C`
followed by an arbitrary packet sequence `ps`. -/
def after_writes (st : List (Nat × ChipEntry)) (C : Nat) (V : Int)
    (ps : List Packet) : List (Nat × ChipEntry) :=
  ps.foldl observe_config (observe_config st (.config_write C global_threshold_address V))

/-- Number of `DATA_PACKET`s a frame's payload parses into. -/
def data_packet_count (b : Frame) : Nat := (b.packets.filter Packet.isData).length

theorem alookup_range_map {α : Type} (v : α) (n c : Nat) :
    alookup c ((List.range n).map (fun i => (i, v))) =
      if c < n then some v else none := by
  induction n with
  | zero => simp [alookup]
  | succ n ih =>
      rw [List.range_succ, List.map_append]
      have happ : ∀ (l1 l2 : List (Nat × α)) (k : Nat),
          alookup k (l1 ++ l2) = ((alookup k l1).or (alookup k l2)) := by
        intro l1
        induction l1 with
        | nil => simp [alookup]
        | cons hd tl ih2 =>
            intro l2 k
            obtain ⟨k', v'⟩ := hd
            by_cases hk : k = k'
            · simp [alookup, hk]
            · simp [alookup, hk, ih2]
      rw [happ, ih]
      by_cases h1 : c < n
      · have h3 : c < n + 1 := by omega
        simp [h1, h3, Option.or]
      · by_cases h2 : c = n
        · subst h2
          simp [h1, alookup, Option.or]
        · have h3 : ¬ c < n + 1 := by omega
          simp [alookup, h1, h2, h3, Option.or]

/-- C4: while the timestamp-reference dict is empty, processing a data
packet with a valid (non-negative) capture time stores the reconstructed
timestamp as the reference of EVERY chip id in the valid range 0..254
(`range(255)` in the source), not only the observed chip. -/
theorem cold_start_seeds_all_chips (geom : Geometry) (calib : Calib)
    (fp : Packet → Int → Option Timestamp → Timestamp) (sb cpu : Int)
    (st : LoopState) (chipid channel : Nat) (dw tsv : Int) (c : Nat)
    (hempty : st.last_timestamp = []) (hcpu : ¬ cpu < 0) (hc : c < 255) :
    alookup c (process_data_packet geom calib fp sb cpu st
        (.data chipid channel dw tsv)).last_timestamp =
      some (fp (.data chipid channel dw tsv) cpu none) := by
  simp only [process_data_packet, hempty, alookup_nil, if_neg hcpu,
    List.isEmpty_nil, if_true]
  rw [alookup_range_map]
  simp [hc]

theorem cold_start_seeds_all_chips_witness :
    ¬ (10 : Int) < 0 ∧ (200 : Nat) < 255 ∧
    alookup 200 (process_data_packet
        (Geometry.mk [] (Pixel.mk none 0 0)) []
        (fun _ c _ => Timestamp.mk c) 0 10
        (LoopState.mk [] [] []) (.data 3 2 100 7)).last_timestamp =
      some (Timestamp.mk 10) :=
  ⟨by decide, by decide,
   cold_start_seeds_all_chips (Geometry.mk [] (Pixel.mk none 0 0)) []
     (fun _ c _ => Timestamp.mk c) 0 10 (LoopState.mk [] [] []) 3 2 100 7 200
     rfl (by decide) (by decide)⟩

/-- C5 (code bug): a data packet whose frame carries the invalid capture
time `-1` leaves every chip's timestamp reference unchanged (here: the
dict stays empty), but the emitted record does NOT carry a sentinel in
its reconstructed-timestamp column: the source never assigns
`current_array[...][8]` on that path, leaving the uninitialized
`np.empty` cell (modelled as `none`), which in particular is not the
sentinel `-1`. -/
theorem invalid_cpu_time_no_sentinel_written :
    (run_loop (Geometry.mk [] (Pixel.mk none 0 0)) []
        (fun _ c _ => Timestamp.mk c) none 0
        [Frame.mk .data .read [.data 3 2 100 7] (-1)]).last_timestamp = [] ∧
    (run_loop (Geometry.mk [] (Pixel.mk none 0 0)) []
        (fun _ c _ => Timestamp.mk c) none 0
        [Frame.mk .data .read [.data 3 2 100 7] (-1)]).records.map
        Record.full_timestamp = [none] ∧
    (run_loop (Geometry.mk [] (Pixel.mk none 0 0)) []
        (fun _ c _ => Timestamp.mk c) none 0
        [Frame.mk .data .read [.data 3 2 100 7] (-1)]).records.map
        Record.full_timestamp ≠ [some (-1)] :=
  ⟨by decide, by decide, by decide⟩

/-- C5, general half: an invalid capture time never updates any chip's
timestamp reference, and the emitted row's reconstructed-timestamp cell
is left unwritten (`none`), for every state and packet. -/
theorem invalid_cpu_time_preserves_references (geom : Geometry) (calib : Calib)
    (fp : Packet → Int → Option Timestamp → Timestamp) (sb cpu : Int)
    (st : LoopState) (chipid channel : Nat) (dw tsv : Int)
    (hcpu : cpu < 0) :
    (process_data_packet geom calib fp sb cpu st
        (.data chipid channel dw tsv)).last_timestamp = st.last_timestamp ∧
    ((process_data_packet geom calib fp sb cpu st
        (.data chipid channel dw tsv)).records.getLast?).map
        Record.full_timestamp = some none := by
  constructor
  · simp [process_data_packet, if_pos hcpu]
  · simp [process_data_packet, if_pos hcpu, List.getLast?_concat]

theorem invalid_cpu_time_preserves_references_witness :
    (-3 : Int) < 0 ∧
    ((process_data_packet (Geometry.mk [] (Pixel.mk none 0 0)) []
        (fun _ c _ => Timestamp.mk c) 4 (-3)
        (LoopState.mk [] [(7, Timestamp.mk 99)] [])
        (.data 3 2 100 7)).last_timestamp =
      (LoopState.mk [] [(7, Timestamp.mk 99)] ([] : List Record)).last_timestamp ∧
     ((process_data_packet (Geometry.mk [] (Pixel.mk none 0 0)) []
        (fun _ c _ => Timestamp.mk c) 4 (-3)
        (LoopState.mk [] [(7, Timestamp.mk 99)] [])
        (.data 3 2 100 7)).records.getLast?).map Record.full_timestamp = some none) :=
  ⟨by decide,
   invalid_cpu_time_preserves_references (Geometry.mk [] (Pixel.mk none 0 0)) []
     (fun _ c _ => Timestamp.mk c) 4 (-3)
     (LoopState.mk [] [(7, Timestamp.mk 99)] []) 3 2 100 7 (by decide)⟩

theorem observe_config_preserves_global (st : List (Nat × ChipEntry))
    (p : Packet) (C : Nat) (hp : isGlobalWriteTo C p = false) :
    global_of (observe_config st p) C = global_of st C := by
  cases p with
  | data _ _ _ _ => rfl
  | other => rfl
  | config_write c a d =>
      simp only [isGlobalWriteTo, Bool.and_eq_false_imp, beq_iff_eq] at hp
      simp only [observe_config]
      by_cases htrim : a ∈ pixel_trim_threshold_addresses
      · rw [if_pos htrim]
        cases he : alookup c st with
        | some e =>
            by_cases hC : C = c
            · subst hC
              simp [global_of, alookup_aset_self, he]
            · simp [global_of, alookup_aset_ne c C _ hC]
        | none =>
            by_cases hC : C = c
            · subst hC
              simp [global_of, alookup_aset_self, he]
            · simp [global_of, alookup_aset_ne c C _ hC]
      · rw [if_neg htrim]
        by_cases hglob : a = global_threshold_address
        · rw [if_pos hglob]
          have hC : C ≠ c := by
            intro hcc
            have hf := hp hcc.symm
            rw [hglob] at hf
            simp at hf
          cases he : alookup c st with
          | some e => simp [global_of, alookup_aset_ne c C _ hC]
          | none => simp [global_of, alookup_aset_ne c C _ hC]
        · rw [if_neg hglob]

theorem foldl_observe_preserves_global (ps : List Packet)
    (st : List (Nat × ChipEntry)) (C : Nat)
    (hps : ∀ p ∈ ps, isGlobalWriteTo C p = false) :
    global_of (ps.foldl observe_config st) C = global_of st C := by
  induction ps generalizing st with
  | nil => rfl
  | cons p rest ih =>
      rw [List.foldl_cons, ih _ (fun q hq => hps q (List.mem_cons_of_mem p hq)),
        observe_config_preserves_global st p C (hps p (List.mem_cons_self p rest))]

theorem observe_global_write_sets (st : List (Nat × ChipEntry)) (C : Nat)
    (V : Int) :
    global_of (observe_config st (.config_write C global_threshold_address V)) C
      = some V := by
  simp only [observe_config]
  have htrim : global_threshold_address ∉ pixel_trim_threshold_addresses := by decide
  rw [if_neg htrim, if_pos trivial]
  cases he : alookup C st with
  | some e => simp [global_of, he, alookup_aset_self]
  | none => simp [global_of, he, alookup_aset_self]

/-- C3 (corrected): after a global-threshold write of `V` to chip `C`
and any further packets none of which rewrite `C`'s global threshold, a
data-packet record for chip `C` carries `V` in its global-threshold
column exactly when that channel's trim has also been written; for a
channel whose trim was never written the single `try` block raises
`KeyError` before reading `'global_threshold'`, so BOTH the trim and the
global-threshold columns carry the sentinel `-1` (not only the trim
column, as the claim states). -/
theorem chip_threshold_global_until_override (st : List (Nat × ChipEntry))
    (C ch : Nat) (V : Int) (ps : List Packet)
    (hps : ∀ p ∈ ps, isGlobalWriteTo C p = false) :
    (∀ t : Int, trim_lookup (after_writes st C V ps) C ch = some t →
       threshold_fields (after_writes st C V ps) C ch = (t, V)) ∧
    (trim_lookup (after_writes st C V ps) C ch = none →
       threshold_fields (after_writes st C V ps) C ch = (-1, -1)) ∧
    (∀ (geom : Geometry) (calib : Calib)
       (fp : Packet → Int → Option Timestamp → Timestamp)
       (sb cpu : Int) (lt : List (Nat × Timestamp)) (recs : List Record)
       (dw tsv : Int),
       ((process_data_packet geom calib fp sb cpu
           (LoopState.mk (after_writes st C V ps) lt recs)
           (.data C ch dw tsv)).records.getLast?).map
         (fun r => (r.pixel_trim, r.global_threshold)) =
       some (threshold_fields (after_writes st C V ps) C ch)) := by
  have hglobal : global_of (after_writes st C V ps) C = some V := by
    unfold after_writes
    rw [foldl_observe_preserves_global ps _ C hps, observe_global_write_sets]
  refine ⟨?_, ?_, ?_⟩
  · intro t ht
    unfold trim_lookup at ht
    unfold global_of at hglobal
    cases he : alookup C (after_writes st C V ps) with
    | none => rw [he] at ht; cases ht
    | some e =>
        rw [he] at ht hglobal
        rw [Option.some_bind] at ht hglobal
        simp only [threshold_fields, he, ht, hglobal]
  · intro ht
    unfold trim_lookup at ht
    cases he : alookup C (after_writes st C V ps) with
    | none => simp only [threshold_fields, he]
    | some e =>
        rw [he] at ht
        rw [Option.some_bind] at ht
        simp only [threshold_fields, he, ht]
  · intro geom calib fp sb cpu lt recs dw tsv
    simp [process_data_packet, List.getLast?_concat]

/-- C3 counterexample: a global-threshold write of 100 to chip 1
followed by a data packet on channel 0 of chip 1 (whose trim was never
written) emits a record whose global-threshold column is `-1`, not the
written value 100 the claim demands. -/
theorem global_write_masked_by_missing_trim :
    (run_loop (Geometry.mk [] (Pixel.mk none 0 0)) []
        (fun _ c _ => Timestamp.mk c) none 0
        [Frame.mk .data .write [.config_write 1 32 100] 0,
         Frame.mk .data .read [.data 1 0 40 5] 10]).records.map
        Record.global_threshold = [-1] ∧
    [(-1 : Int)] ≠ [(100 : Int)] :=
  ⟨by decide, by decide⟩

theorem chip_threshold_global_until_override_witness :
    (∀ p ∈ ([Packet.config_write 1 0 7] : List Packet), isGlobalWriteTo 1 p = false) ∧
    trim_lookup (after_writes [] 1 100 [Packet.config_write 1 0 7]) 1 0 = some 7 ∧
    threshold_fields (after_writes [] 1 100 [Packet.config_write 1 0 7]) 1 0 = (7, 100) ∧
    trim_lookup (after_writes [] 1 100 []) 1 5 = none ∧
    threshold_fields (after_writes [] 1 100 []) 1 5 = (-1, -1) :=
  ⟨by decide, by decide,
   (chip_threshold_global_until_override [] 1 0 100 [Packet.config_write 1 0 7]
     (by decide)).1 7 (by decide),
   by decide,
   (chip_threshold_global_until_override [] 1 5 100 []
     (by decide)).2.1 (by decide)⟩

/-- C8: geometry resolution is total (the two `except` clauses catch
`KeyError` and `IndexError`) and in each of the three failure modes —
chip id absent from the table, channel id out of range for a known chip,
channel entry being the unconnected pixel (id `None`) — the emitted
record carries `-1` in its pixel-id, pixel-x and pixel-y columns. -/
theorem geometry_fallback_sentinels (g : Geometry) (calib : Calib)
    (fp : Packet → Int → Option Timestamp → Timestamp) (sb cpu : Int)
    (st : LoopState) (chipid channel : Nat) (dw tsv : Int)
    (hun : g.unconnected_pixel.pixelid = none)
    (hfail : alookup chipid g.chips = none
      ∨ (∃ conns, alookup chipid g.chips = some conns ∧ conns.length ≤ channel)
      ∨ (∃ conns p, alookup chipid g.chips = some conns ∧
          conns[channel]? = some p ∧ p.pixelid = none)) :
    pixel_fields g chipid channel = (-1, -1, -1) ∧
    ((process_data_packet g calib fp sb cpu st
        (.data chipid channel dw tsv)).records.getLast?).map
      (fun r => (r.pixelid, r.pixelx, r.pixely)) = some (-1, -1, -1) := by
  have hpix : pixel_fields g chipid channel = (-1, -1, -1) := by
    rcases hfail with hnone | ⟨conns, hconns, hlen⟩ | ⟨conns, p, hconns, hp, hpid⟩
    · simp only [pixel_fields, resolve_pixel, hnone, hun]
    · have hidx : conns[channel]? = none := List.getElem?_eq_none hlen
      simp only [pixel_fields, resolve_pixel, hconns, hidx, hun]
    · simp only [pixel_fields, resolve_pixel, hconns, hp, hpid]
  refine ⟨hpix, ?_⟩
  simp [process_data_packet, List.getLast?_concat, hpix]

theorem geometry_fallback_sentinels_witness :
    ((Geometry.mk [(2, [Pixel.mk none 0 0, Pixel.mk (some 4) 1 2])]
        (Pixel.mk none 0 0)).unconnected_pixel.pixelid = none) ∧
    (alookup 9 (Geometry.mk [(2, [Pixel.mk none 0 0, Pixel.mk (some 4) 1 2])]
        (Pixel.mk none 0 0)).chips = none) ∧
    (pixel_fields (Geometry.mk [(2, [Pixel.mk none 0 0, Pixel.mk (some 4) 1 2])]
        (Pixel.mk none 0 0)) 9 1 = (-1, -1, -1) ∧
     ((process_data_packet (Geometry.mk [(2, [Pixel.mk none 0 0, Pixel.mk (some 4) 1 2])]
          (Pixel.mk none 0 0)) [] (fun _ c _ => Timestamp.mk c) 0 5
          (LoopState.mk [] [] []) (.data 9 1 40 6)).records.getLast?).map
        (fun r => (r.pixelid, r.pixelx, r.pixely)) = some (-1, -1, -1)) :=
  ⟨by decide, by decide,
   geometry_fallback_sentinels
     (Geometry.mk [(2, [Pixel.mk none 0 0, Pixel.mk (some 4) 1 2])] (Pixel.mk none 0 0))
     [] (fun _ c _ => Timestamp.mk c) 0 5 (LoopState.mk [] [] []) 9 1 40 6
     (by decide) (Or.inl (by decide))⟩

theorem process_data_packet_records_length (geom : Geometry) (calib : Calib)
    (fp : Packet → Int → Option Timestamp → Timestamp) (sb cpu : Int)
    (st : LoopState) (p : Packet) :
    (process_data_packet geom calib fp sb cpu st p).records.length =
      st.records.length + (if p.isData then 1 else 0) := by
  cases p <;> simp [process_data_packet, Packet.isData]

theorem foldl_process_records_length (geom : Geometry) (calib : Calib)
    (fp : Packet → Int → Option Timestamp → Timestamp) (sb cpu : Int)
    (ps : List Packet) (st : LoopState) :
    ((ps.foldl (process_data_packet geom calib fp sb cpu) st).records.length) =
      st.records.length + (ps.filter Packet.isData).length := by
  induction ps generalizing st with
  | nil => simp
  | cons p rest ih =>
      rw [List.foldl_cons, ih, process_data_packet_records_length]
      by_cases hp : p.isData
      · simp [List.filter_cons, hp]
        omega
      · simp [List.filter_cons, hp]

theorem process_block_records_length (geom : Geometry) (calib : Calib)
    (fp : Packet → Int → Option Timestamp → Timestamp) (sb : Int)
    (st : LoopState) (b : Frame) :
    (process_block geom calib fp sb st b).records.length =
      st.records.length +
        (if b.block_type = .data ∧ b.data_type = .read then data_packet_count b
         else 0) := by
  unfold process_block data_packet_count
  by_cases h1 : b.block_type = .data ∧ b.data_type = .write
  · have h2 : ¬ (b.block_type = .data ∧ b.data_type = .read) := by
      intro hc
      rw [hc.2] at h1
      cases h1.2
    rw [if_pos h1, if_neg h2]
    simp
  · rw [if_neg h1]
    by_cases h2 : b.block_type = .data ∧ b.data_type = .read
    · rw [if_pos h2, if_pos h2, foldl_process_records_length]
    · rw [if_neg h2, if_neg h2]
      simp

theorem run_loop_aux_records_length (geom : Geometry) (calib : Calib)
    (fp : Packet → Int → Option Timestamp → Timestamp)
    (blocks : List Frame) (sb : Int) (st : LoopState) (hsb : -1 ≤ sb) :
    (run_loop_aux geom calib fp none 0 blocks sb st).records.length =
      st.records.length +
        (blocks.map (fun b =>
          if b.block_type = .data ∧ b.data_type = .read then data_packet_count b
          else 0)).sum := by
  induction blocks generalizing sb st with
  | nil => simp [run_loop_aux]
  | cons b rest ih =>
      have hskip : ¬ (sb + 1 < 0) := by omega
      simp only [run_loop_aux, if_neg hskip]
      rw [ih _ _ (by omega), process_block_records_length]
      simp [Nat.add_assoc]

/-- C9: with no skip count and no transmission limit, a full conversion
pass emits exactly one record per `DATA_PACKET` of the stream, for any
mix of frames, provided data packets appear only in data-read frames
(the loop never scans a non-read frame for data packets). -/
theorem record_count_eq_data_packet_count (geom : Geometry) (calib : Calib)
    (fp : Packet → Int → Option Timestamp → Timestamp) (blocks : List Frame)
    (hwf : ∀ b ∈ blocks, (b.block_type = .data ∧ b.data_type = .read) ∨
      (∀ p ∈ b.packets, p.isData = false)) :
    (run_loop geom calib fp none 0 blocks).records.length =
      (blocks.map data_packet_count).sum := by
  unfold run_loop
  rw [run_loop_aux_records_length geom calib fp blocks (-1) _ (by omega)]
  simp only [List.length_nil, Nat.zero_add]
  congr 1
  apply List.map_congr_left
  intro b hb
  by_cases hread : b.block_type = .data ∧ b.data_type = .read
  · rw [if_pos hread]
  · rw [if_neg hread]
    rcases hwf b hb with hr | hnp
    · exact absurd hr hread
    · unfold data_packet_count
      rw [List.filter_eq_nil_iff.mpr (fun p hp => by simp [hnp p hp])]
      rfl

theorem record_count_eq_data_packet_count_witness :
    (∀ b ∈ [Frame.mk .data .write [.config_write 1 32 100] 0,
            Frame.mk .data .read [.data 1 0 40 5, .other, .data 2 3 50 6] 10,
            Frame.mk .other .other [] 0,
            Frame.mk .data .read [.config_write 1 32 9, .data 1 1 41 5] 11],
        (b.block_type = .data ∧ b.data_type = .read) ∨
          (∀ p ∈ b.packets, p.isData = false)) ∧
    (run_loop (Geometry.mk [] (Pixel.mk none 0 0)) []
        (fun _ c _ => Timestamp.mk c) none 0
        [Frame.mk .data .write [.config_write 1 32 100] 0,
         Frame.mk .data .read [.data 1 0 40 5, .other, .data 2 3 50 6] 10,
         Frame.mk .other .other [] 0,
         Frame.mk .data .read [.config_write 1 32 9, .data 1 1 41 5] 11]).records.length =
      ([Frame.mk .data .write [.config_write 1 32 100] 0,
        Frame.mk .data .read [.data 1 0 40 5, .other, .data 2 3 50 6] 10,
        Frame.mk .other .other [] 0,
        Frame.mk .data .read [.config_write 1 32 9, .data 1 1 41 5] 11].map
          data_packet_count).sum :=
  ⟨by decide,
   record_count_eq_data_packet_count (Geometry.mk [] (Pixel.mk none 0 0)) []
     (fun _ c _ => Timestamp.mk c) _ (by decide)⟩

end LarpixDat2h5
